import Mathlib

/-
Shallow embedding of the sc-church-app-backend repository (FastAPI + SQLAlchemy).

The relational store is modelled as lists of rows inside a `DB` value; every
service function is a pure function from a `DB` (plus the clock values the
source obtains from `date.today()` / `datetime.utcnow()`) to an
`Except Err (result × DB)`.  `HTTPException` status codes become the `Err`
inductive.  UUIDs are modelled as `Nat` (fresh ids drawn from `DB.next_id`),
dates and timestamps as `Nat`.

Sources embedded:
  app/models/{member,attendance,user}.py   (row shapes, unique constraint)
  app/services/attendance.py               (AttendanceService)
  app/services/member.py                   (MemberService)
  app/services/user.py                     (UserService)
  app/schemas/{attendance,user}.py         (request/response shapes, role enums)
  app/api/deps.py                          (role gates)
  app/api/v1/endpoints/attendance.py       (list_attendance pagination)
-/

namespace ChurchApp

/-- Error raised via fastapi `HTTPException`, identified by its HTTP status code:
`notFound` = 404, `conflict` = 409, `badRequest` = 400, `forbidden` = 403. -/
inductive Err
  | notFound
  | conflict
  | badRequest
  | forbidden
  deriving DecidableEq, Repr

/-- HTTP status code each service-layer error is raised with in the source. -/
def Err.httpStatus : Err → Nat
  | .notFound => 404
  | .conflict => 409
  | .badRequest => 400
  | .forbidden => 403

/-- app/models/attendance.py `AttendanceStatusEnum`. -/
inductive AttendanceStatusEnum
  | present
  | absent
  | late
  | excused
  deriving DecidableEq, Repr

/-- Row of the `members` table (app/models/member.py); fields not used by any
claim (gender, dates, address, timestamps) are omitted. -/
structure Member where
  id : Nat
  first_name : String
  second_name : Option String
  last_name : String
  phone_number : Option String
  email : Option String
  membership_status : String
  is_deleted : Bool
  deriving DecidableEq, Repr

/-- Row of the `attendance` table (app/models/attendance.py).  The table also
declares `UniqueConstraint("member_id", "attendance_date")`, which is modelled
by `hasDuplicateKey` below (checked at commit time, over all rows, deleted or
not — the constraint has no filter on `is_deleted`). -/
structure Attendance where
  id : Nat
  member_id : Nat
  attendance_date : Nat
  status : AttendanceStatusEnum
  check_in_time : Nat
  notes : Option String
  is_deleted : Bool
  deriving DecidableEq, Repr

/-- Row of the `users` table (app/models/user.py).  The role is stored as the
string value of whatever enum member the service assigned (the DB column holds
strings; the model enum values are "super_admin", "calling_team",
"texting_team"). -/
structure User where
  id : Nat
  email : String
  username : String
  full_name : String
  role : String
  hashed_password : String
  is_active : Bool
  must_change_password : Bool
  is_deleted : Bool
  created_at : Nat
  deriving DecidableEq, Repr

/-- The relational store: one list per table plus a fresh-id source standing in
for `uuid.uuid4()`. -/
structure DB where
  members : List Member
  attendance : List Attendance
  users : List User
  next_id : Nat
  deriving DecidableEq, Repr

/-! ### Query helpers (SQLAlchemy `query(...).filter(...).first()` etc.) -/

/-- `db.query(Member).filter(Member.id == mid, Member.is_deleted == False).first()`. -/
def findLiveMember (members : List Member) (mid : Nat) : Option Member :=
  members.find? fun m => m.id == mid && !m.is_deleted

/-- `AttendanceService._get_member_or_404`. -/
def getMemberOr404 (members : List Member) (mid : Nat) : Except Err Member :=
  match findLiveMember members mid with
  | some m => .ok m
  | none => .error .notFound

/-- The relationship join `record.member` used for name denormalization; it is
a plain foreign-key join and does not filter `is_deleted`. -/
def memberById (members : List Member) (mid : Nat) : Option Member :=
  members.find? fun m => m.id == mid

/-- Duplicate guard query of `mark_attendance` / `confirm_and_mark` /
`bulk_mark_attendance`: first non-deleted attendance row for (member, date). -/
def findExistingAttendance (l : List Attendance) (mid d : Nat) : Option Attendance :=
  l.find? fun a => a.member_id == mid && a.attendance_date == d && !a.is_deleted

/-- `AttendanceService._get_record_or_404`. -/
def getRecordOr404 (l : List Attendance) (aid : Nat) : Except Err Attendance :=
  match l.find? (fun a => a.id == aid && !a.is_deleted) with
  | some a => .ok a
  | none => .error .notFound

/-- Two rows violating `uq_member_attendance_date`: the storage-level unique
constraint on (member_id, attendance_date), which ignores `is_deleted`. -/
def sameKey (a b : Attendance) : Bool :=
  a.member_id == b.member_id && a.attendance_date == b.attendance_date

/-- Whether a commit of this table state raises `IntegrityError`: some pair of
distinct rows shares the (member_id, attendance_date) key. -/
def hasDuplicateKey : List Attendance → Bool
  | [] => false
  | a :: rest => rest.any (sameKey a) || hasDuplicateKey rest

/-! ### Response shaping -/

/-- Composed display name: first [+ second] + last, space-joined
(`_build_response_dict` / `lookup_by_phone`). -/
def memberFullName (m : Member) : String :=
  String.intercalate " "
    ([m.first_name] ++ (match m.second_name with | some s => [s] | none => []) ++ [m.last_name])

/-- app/schemas/attendance.py `AttendanceResponse` = the dict built by
`_build_response_dict`. -/
structure AttendanceResponse where
  id : Nat
  member_id : Nat
  member_name : Option String
  attendance_date : Nat
  status : AttendanceStatusEnum
  check_in_time : Nat
  notes : Option String
  is_deleted : Bool
  deriving DecidableEq, Repr

/-- `_build_response_dict(record)` (app/services/attendance.py). -/
def buildResponseDict (members : List Member) (r : Attendance) : AttendanceResponse :=
  { id := r.id
    member_id := r.member_id
    member_name := (memberById members r.member_id).map memberFullName
    attendance_date := r.attendance_date
    status := r.status
    check_in_time := r.check_in_time
    notes := r.notes
    is_deleted := r.is_deleted }

/-! ### Request schemas (app/schemas/attendance.py) -/

/-- `AttendanceCreate`: staff single mark request. -/
structure AttendanceCreate where
  member_id : Nat
  status : AttendanceStatusEnum := .present
  attendance_date : Option Nat := none
  notes : Option String := none

/-- `AttendanceBulkCreate`: staff bulk mark request. -/
structure AttendanceBulkCreate where
  member_ids : List Nat
  status : AttendanceStatusEnum := .present
  attendance_date : Option Nat := none
  notes : Option String := none

/-- `QRConfirmRequest`: the public QR confirm body. It carries only `member_id`
and an optional `attendance_date` — there is no status field at all. -/
structure QRConfirmRequest where
  member_id : Nat
  attendance_date : Option Nat := none

/-- `AttendanceUpdate`: partial patch; the outer Option is pydantic
exclude_unset (field provided or not). -/
structure AttendanceUpdate where
  status : Option AttendanceStatusEnum := none
  notes : Option (Option String) := none

/-- `BulkAttendanceResult` (app/schemas/attendance.py). -/
structure BulkAttendanceResult where
  created : List AttendanceResponse
  skipped : List Nat
  total_created : Nat
  total_skipped : Nat
  deriving DecidableEq, Repr

/-! ### AttendanceService (app/services/attendance.py) -/

/-- The `Attendance(...)` constructor call shared by the three create paths:
fresh id, check-in time `utcnow`, not deleted. -/
def newRecord (db : DB) (mid d : Nat) (st : AttendanceStatusEnum) (now : Nat)
    (notes : Option String) : Attendance :=
  { id := db.next_id
    member_id := mid
    attendance_date := d
    status := st
    check_in_time := now
    notes := notes
    is_deleted := false }

/-- `db.add(record)` followed by a successful commit. -/
def pushRecord (db : DB) (rec : Attendance) : DB :=
  { db with attendance := db.attendance ++ [rec], next_id := db.next_id + 1 }

/-- Shared tail of `mark_attendance` and `confirm_and_mark`: `db.add`;
`db.commit()` with `IntegrityError` converted to a 409; `db.refresh`;
re-fetch through `_get_record_or_404`; `_build_response_dict`. -/
def commitNew (db : DB) (rec : Attendance) : Except Err (AttendanceResponse × DB) :=
  if hasDuplicateKey (db.attendance ++ [rec]) then .error .conflict
  else
    match getRecordOr404 (pushRecord db rec).attendance rec.id with
    | .error e => .error e
    | .ok r => .ok (buildResponseDict (pushRecord db rec).members r, pushRecord db rec)

/-- `AttendanceService.mark_attendance`: member 404 check, duplicate pre-check
(409), then insert + commit. -/
def mark_attendance (db : DB) (today now : Nat) (data : AttendanceCreate) :
    Except Err (AttendanceResponse × DB) :=
  match getMemberOr404 db.members data.member_id with
  | .error e => .error e
  | .ok _ =>
    if (findExistingAttendance db.attendance data.member_id
        (data.attendance_date.getD today)).isSome then
      .error .conflict
    else
      commitNew db (newRecord db data.member_id (data.attendance_date.getD today)
        data.status now data.notes)

/-- `AttendanceService.confirm_and_mark`: same flow as `mark_attendance` but
status forced to PRESENT and notes fixed to the QR sentinel string. -/
def confirm_and_mark (db : DB) (today now : Nat) (data : QRConfirmRequest) :
    Except Err (AttendanceResponse × DB) :=
  match getMemberOr404 db.members data.member_id with
  | .error e => .error e
  | .ok _ =>
    if (findExistingAttendance db.attendance data.member_id
        (data.attendance_date.getD today)).isSome then
      .error .conflict
    else
      commitNew db (newRecord db data.member_id (data.attendance_date.getD today)
        .present now (some "Self-checked via QR code"))

/-- The per-id loop of `bulk_mark_attendance`: members that do not resolve or
already have a non-deleted row for the date are appended to `skipped`; the
rest get a pending insert (visible to the later iterations of the loop). -/
def bulkLoop (st : AttendanceStatusEnum) (notes : Option String) (d now : Nat) :
    List Nat → DB → List Nat → DB × List Nat
  | [], db, skipped => (db, skipped)
  | mid :: rest, db, skipped =>
    if (findLiveMember db.members mid).isNone then
      bulkLoop st notes d now rest db (skipped ++ [mid])
    else if (findExistingAttendance db.attendance mid d).isSome then
      bulkLoop st notes d now rest db (skipped ++ [mid])
    else
      bulkLoop st notes d now rest (pushRecord db (newRecord db mid d st now notes)) skipped

/-- `AttendanceService.bulk_mark_attendance`: loop, one commit (whole batch 409
on `IntegrityError`), then the `created` list is built by re-querying ALL
non-deleted rows whose member_id is in the input list and whose date is the
target date. -/
def bulk_mark_attendance (db : DB) (today now : Nat) (data : AttendanceBulkCreate) :
    Except Err (BulkAttendanceResult × DB) :=
  match bulkLoop data.status data.notes (data.attendance_date.getD today) now
      data.member_ids db [] with
  | (db2, skipped) =>
    if hasDuplicateKey db2.attendance then .error .conflict
    else
      .ok (⟨(db2.attendance.filter fun a =>
                data.member_ids.contains a.member_id &&
                a.attendance_date == (data.attendance_date.getD today) && !a.is_deleted).map
              (buildResponseDict db2.members),
            skipped,
            ((db2.attendance.filter fun a =>
                data.member_ids.contains a.member_id &&
                a.attendance_date == (data.attendance_date.getD today) && !a.is_deleted).map
              (buildResponseDict db2.members)).length,
            skipped.length⟩,
          db2)

/-- `AttendanceService.get_attendance`. -/
def get_attendance (db : DB) (aid : Nat) : Except Err AttendanceResponse :=
  match getRecordOr404 db.attendance aid with
  | .error e => .error e
  | .ok r => .ok (buildResponseDict db.members r)

/-- Ordering used by the list query: attendance date descending, then check-in
time descending (`a` strictly before `b`). -/
def attendanceBefore (a b : Attendance) : Bool :=
  b.attendance_date < a.attendance_date ||
    (a.attendance_date == b.attendance_date && b.check_in_time < a.check_in_time)

/-- Insert into an ordered list (used to model `order_by`). -/
def insertOrdered {α : Type} (lt : α → α → Bool) (a : α) : List α → List α
  | [] => [a]
  | b :: rest => if lt a b then a :: b :: rest else b :: insertOrdered lt a rest

/-- Insertion sort modelling the SQL `ORDER BY`. -/
def orderBy {α : Type} (lt : α → α → Bool) : List α → List α
  | [] => []
  | a :: rest => insertOrdered lt a (orderBy lt rest)

/-- Optional filters of `get_attendance_records`. -/
structure AttendanceFilters where
  member_id : Option Nat := none
  attendance_date : Option Nat := none
  status_filter : Option AttendanceStatusEnum := none
  from_date : Option Nat := none
  to_date : Option Nat := none

/-- Conjunction of the always-on `is_deleted == False` filter with the
optional filters of `get_attendance_records`. -/
def matchesFilters (f : AttendanceFilters) (a : Attendance) : Bool :=
  !a.is_deleted &&
  (match f.member_id with | some m => a.member_id == m | none => true) &&
  (match f.attendance_date with | some d => a.attendance_date == d | none => true) &&
  (match f.status_filter with | some s => a.status == s | none => true) &&
  (match f.from_date with | some d => d ≤ a.attendance_date | none => true) &&
  (match f.to_date with | some d => a.attendance_date ≤ d | none => true)

/-- `AttendanceService.get_attendance_records`: count the filtered rows, then
order, offset, limit. -/
def get_attendance_records (db : DB) (skip limit : Nat) (f : AttendanceFilters) :
    List AttendanceResponse × Nat :=
  (((orderBy attendanceBefore (db.attendance.filter (matchesFilters f))).drop skip).take limit
      |>.map (buildResponseDict db.members),
    (db.attendance.filter (matchesFilters f)).length)

/-- `AttendanceListResponse` (app/schemas/attendance.py). -/
structure AttendanceListResponse where
  items : List AttendanceResponse
  total : Nat
  page : Nat
  page_size : Nat
  total_pages : Nat
  deriving DecidableEq, Repr

/-- GET /attendance endpoint `list_attendance`
(app/api/v1/endpoints/attendance.py): `skip = (page - 1) * page_size`,
`total_pages = math.ceil(total / page_size) if total > 0 else 0`. -/
def list_attendance (db : DB) (page page_size : Nat) (f : AttendanceFilters) :
    AttendanceListResponse :=
  match get_attendance_records db ((page - 1) * page_size) page_size f with
  | (records, total) =>
    { items := records
      total := total
      page := page
      page_size := page_size
      total_pages := if 0 < total then (total + page_size - 1) / page_size else 0 }

/-- Patch application of `update_attendance` (`model_dump(exclude_unset=True)` +
`setattr`). -/
def applyAttendanceUpdate (data : AttendanceUpdate) (r : Attendance) : Attendance :=
  let r1 := match data.status with | some s => { r with status := s } | none => r
  match data.notes with | some n => { r1 with notes := n } | none => r1

/-- Mutation of the single ORM row a query handed back: rewrite the first row
matching the predicate. -/
def updateFirst {α : Type} (p : α → Bool) (f : α → α) : List α → List α
  | [] => []
  | a :: rest => if p a then f a :: rest else a :: updateFirst p f rest

/-- `AttendanceService.update_attendance`. -/
def update_attendance (db : DB) (aid : Nat) (data : AttendanceUpdate) :
    Except Err (AttendanceResponse × DB) :=
  match getRecordOr404 db.attendance aid with
  | .error e => .error e
  | .ok r =>
    .ok (buildResponseDict db.members (applyAttendanceUpdate data r),
      { db with attendance := (updateFirst
          (fun a => a.id == aid && !a.is_deleted) (applyAttendanceUpdate data)
          db.attendance) })

/-- `AttendanceService.delete_attendance`: soft delete, returns the dict of the
now-deleted record. -/
def delete_attendance (db : DB) (aid : Nat) : Except Err (AttendanceResponse × DB) :=
  match getRecordOr404 db.attendance aid with
  | .error e => .error e
  | .ok r =>
    .ok (buildResponseDict db.members { r with is_deleted := true },
      { db with attendance := (updateFirst
          (fun a => a.id == aid && !a.is_deleted)
          (fun a => { a with is_deleted := true }) db.attendance) })

/-! ### MemberService (app/services/member.py) — the slice the claims need -/

/-- Case-insensitive substring test modelling `column.ilike(f"%{term}%")`. -/
def matchAt (pat txt : List Char) : Bool :=
  match pat, txt with
  | [], _ => true
  | _ :: _, [] => false
  | a :: as, b :: bs => a == b && matchAt as bs

/-- String `s` contains `term`, case-insensitively. -/
def containsCI (s term : String) : Bool :=
  (List.range (s.toLower.toList.length + 1)).any fun i =>
    matchAt term.toLower.toList (s.toLower.toList.drop i)

/-- Search disjunction of `MemberService.get_members`: ilike over first name,
last name, email, phone (a NULL column never matches). -/
def memberMatchesSearch (term : String) (m : Member) : Bool :=
  containsCI m.first_name term || containsCI m.last_name term ||
  (match m.email with | some e => containsCI e term | none => false) ||
  (match m.phone_number with | some p => containsCI p term | none => false)

/-- Filter of `MemberService.get_members`: non-deleted, optional status
equality, optional search. -/
def memberListFilter (membership_status : Option String) (search : Option String)
    (m : Member) : Bool :=
  !m.is_deleted &&
  (match membership_status with | some s => m.membership_status == s | none => true) &&
  (match search with | some t => memberMatchesSearch t m | none => true)

/-- Ordering of the member list: last name then first name, ascending. -/
def memberBefore (a b : Member) : Bool :=
  decide (a.last_name < b.last_name) ||
    (a.last_name == b.last_name && decide (a.first_name < b.first_name))

namespace MemberService

/-- `MemberService.get_member`. -/
def get_member (db : DB) (mid : Nat) : Except Err Member :=
  match findLiveMember db.members mid with
  | some m => .ok m
  | none => .error .notFound

/-- `MemberService.get_members`: paginated list with optional filters. -/
def get_members (db : DB) (skip limit : Nat) (membership_status : Option String)
    (search : Option String) : List Member × Nat :=
  (((orderBy memberBefore (db.members.filter (memberListFilter membership_status search))).drop
      skip).take limit,
    (db.members.filter (memberListFilter membership_status search)).length)

/-- `MemberService.delete_member`: soft delete. -/
def delete_member (db : DB) (mid : Nat) : Except Err (Member × DB) :=
  match findLiveMember db.members mid with
  | none => .error .notFound
  | some m =>
    .ok ({ m with is_deleted := true },
      { db with members := (updateFirst
          (fun x => x.id == mid && !x.is_deleted)
          (fun x => { x with is_deleted := true }) db.members) })

end MemberService

/-! ### Role enums: the wire schema enum vs the persistence model enum -/

/-- app/schemas/user.py `UserRole`: the legacy two-value wire enum. -/
inductive SchemaUserRole
  | admin
  | user
  deriving DecidableEq, Repr

/-- String value of each wire-schema role member. -/
def SchemaUserRole.value : SchemaUserRole → String
  | .admin => "admin"
  | .user => "user"

/-- Pydantic validation of a role string against the wire-schema enum: only
the enum values are accepted. -/
def parseSchemaUserRole (s : String) : Option SchemaUserRole :=
  if s = "admin" then some .admin
  else if s = "user" then some .user
  else none

/-- app/models/user.py `UserRole`: the three-value persistence enum. -/
inductive ModelUserRole
  | super_admin
  | calling_team
  | texting_team
  deriving DecidableEq, Repr

/-- String value of each persistence-model role member (these are the strings
stored in the role column, via `values_callable`). -/
def ModelUserRole.value : ModelUserRole → String
  | .super_admin => "super_admin"
  | .calling_team => "calling_team"
  | .texting_team => "texting_team"

/-! ### UserService (app/services/user.py) -/

/-- Password hashing is an external collaborator (`app.core.security`, not in
the repository snapshot); modelled as an injective tagging function. -/
def get_password_hash (p : String) : String := "hashed:" ++ p

/-- app/schemas/user.py `UserCreate`. -/
structure UserCreate where
  email : String
  username : String
  full_name : String
  role : SchemaUserRole := .user
  password : String

/-- app/schemas/user.py `UserUpdate`: partial patch, all fields optional. -/
structure UserUpdate where
  email : Option String := none
  full_name : Option String := none
  role : Option SchemaUserRole := none
  is_active : Option Bool := none

/-- Patch application of `UserService.update_user`
(`model_dump(exclude_unset=True)` + `setattr`); a provided role is stored as
the wire-schema enum value string. -/
def applyUserUpdate (data : UserUpdate) (u : User) : User :=
  let u1 := match data.email with | some e => { u with email := e } | none => u
  let u2 := match data.full_name with | some n => { u1 with full_name := n } | none => u1
  let u3 := match data.role with | some r => { u2 with role := r.value } | none => u2
  match data.is_active with | some b => { u3 with is_active := b } | none => u3

/-- Count of non-deleted super_admin users (the `admin_count` query of
`UserService.delete_user`). -/
def countSuperAdmins (users : List User) : Nat :=
  users.countP fun u => u.role == ModelUserRole.super_admin.value && !u.is_deleted

namespace UserService

/-- `UserService.get_user`. -/
def get_user (db : DB) (uid : Nat) : Except Err User :=
  match db.users.find? (fun u => u.id == uid && !u.is_deleted) with
  | some u => .ok u
  | none => .error .notFound

/-- `UserService.get_users`: paginated list ordered by created_at descending. -/
def get_users (db : DB) (skip limit : Nat) (role : Option ModelUserRole)
    (is_active : Option Bool) : List User × Nat :=
  (((orderBy (fun a b => b.created_at < a.created_at)
      (db.users.filter fun u =>
        !u.is_deleted &&
        (match role with | some r => u.role == r.value | none => true) &&
        (match is_active with | some b => u.is_active == b | none => true))).drop skip).take
      limit,
    (db.users.filter fun u =>
      !u.is_deleted &&
      (match role with | some r => u.role == r.value | none => true) &&
      (match is_active with | some b => u.is_active == b | none => true)).length)

/-- `UserService.create_user`: email/username uniqueness among non-deleted
rows (400 on clash), username lowercased, role stored as given,
must_change_password forced on. -/
def create_user (db : DB) (now : Nat) (data : UserCreate) : Except Err (User × DB) :=
  if (db.users.find? fun u => u.email == data.email && !u.is_deleted).isSome then
    .error .badRequest
  else if (db.users.find? fun u =>
      u.username == data.username.toLower && !u.is_deleted).isSome then
    .error .badRequest
  else
    .ok ({ id := db.next_id
           email := data.email
           username := data.username.toLower
           full_name := data.full_name
           role := data.role.value
           hashed_password := get_password_hash data.password
           is_active := true
           must_change_password := true
           is_deleted := false
           created_at := now },
      { db with
          users := db.users ++
            [{ id := db.next_id
               email := data.email
               username := data.username.toLower
               full_name := data.full_name
               role := data.role.value
               hashed_password := get_password_hash data.password
               is_active := true
               must_change_password := true
               is_deleted := false
               created_at := now }]
          next_id := db.next_id + 1 })

/-- Email-clash test of `UserService.update_user`: only when an email is
provided and differs from the current one, look for another live user holding
it. -/
def updateEmailClash (db : DB) (uid : Nat) (user : User) : Option String → Bool
  | some e => e != user.email &&
      (db.users.find? fun u2 => u2.email == e && !u2.is_deleted && u2.id != uid).isSome
  | none => false

/-- `UserService.update_user`: 404 on missing live user, 400 on email clash
when the email is changed, then partial patch (no guard at all on role
changes). -/
def update_user (db : DB) (uid : Nat) (data : UserUpdate) : Except Err (User × DB) :=
  match db.users.find? (fun u => u.id == uid && !u.is_deleted) with
  | none => .error .notFound
  | some user =>
    if updateEmailClash db uid user data.email then
      .error .badRequest
    else
      .ok (applyUserUpdate data user,
        { db with users := (updateFirst
            (fun u => u.id == uid && !u.is_deleted) (applyUserUpdate data) db.users) })

/-- `UserService.reset_password`: overwrite the hash and force a password
change on next login. -/
def reset_password (db : DB) (uid : Nat) (new_password : String) :
    Except Err (User × DB) :=
  match db.users.find? (fun u => u.id == uid && !u.is_deleted) with
  | none => .error .notFound
  | some user =>
    .ok ({ user with
            hashed_password := get_password_hash new_password
            must_change_password := true },
      { db with users := (updateFirst
          (fun u => u.id == uid && !u.is_deleted)
          (fun u => { u with
            hashed_password := get_password_hash new_password
            must_change_password := true }) db.users) })

/-- `UserService.delete_user`: blocks with a 400 when the target is the last
non-deleted super_admin; otherwise soft-deletes and clears is_active. -/
def delete_user (db : DB) (uid : Nat) : Except Err (User × DB) :=
  match db.users.find? (fun u => u.id == uid && !u.is_deleted) with
  | none => .error .notFound
  | some user =>
    if user.role == ModelUserRole.super_admin.value && countSuperAdmins db.users ≤ 1 then
      .error .badRequest
    else
      .ok ({ user with is_deleted := true, is_active := false },
        { db with users := (updateFirst
            (fun u => u.id == uid && !u.is_deleted)
            (fun u => { u with is_deleted := true, is_active := false }) db.users) })

end UserService

/-! ### Access gates (app/api/deps.py) -/

/-- `require_admin`: super_admin only, 403 otherwise.  The caller is the
already-authenticated, active, non-deleted user produced by
`get_current_active_user`. -/
def require_admin (u : User) : Except Err User :=
  if u.role != ModelUserRole.super_admin.value then .error .forbidden else .ok u

/-- `require_member_access`: every authenticated active role passes. -/
def require_member_access (u : User) : Except Err User := .ok u

/-- `require_attendance_access`: forbids exactly the texting_team role. -/
def require_attendance_access (u : User) : Except Err User :=
  if u.role == ModelUserRole.texting_team.value then .error .forbidden else .ok u

/-- Names of the dependency functions defined in app/api/deps.py. -/
def depsDefinedNames : List String :=
  ["get_db", "get_current_user", "get_current_active_user", "require_admin",
   "require_member_access", "require_attendance_access"]

/-- Name imported from app.api.deps and wired as the `Depends` gate of every
attendance endpoint (app/api/v1/endpoints/attendance.py line 8). -/
def attendanceEndpointsDependencyName : String := "require_user_or_admin"

/-! ### Store well-formedness: primary-key freshness of `next_id` -/

/-- Fresh-id invariant standing in for uuid4 uniqueness: every stored
attendance row has an id below the fresh-id source. -/
def DB.freshIds (db : DB) : Prop :=
  ∀ a ∈ db.attendance, a.id < db.next_id

instance (db : DB) : Decidable db.freshIds := by
  unfold DB.freshIds; infer_instance

/-! ### Concrete stores used by witnesses and counterexamples -/

/-- Live member with id 1 used by several witnesses. -/
def memberJane : Member :=
  { id := 1, first_name := "Jane", second_name := none, last_name := "Doe",
    phone_number := some "+1555", email := none, membership_status := "active",
    is_deleted := false }

/-- Store holding just one live member and no attendance. -/
def dbJane : DB :=
  { members := [memberJane], attendance := [], users := [], next_id := 10 }

/-- Record created by the C3 witness run of `confirm_and_mark`. -/
def recC3 : Attendance :=
  { id := 10, member_id := 1, attendance_date := 5, status := .present,
    check_in_time := 100, notes := some "Self-checked via QR code", is_deleted := false }

/-- Response of the C3 witness run. -/
def respC3 : AttendanceResponse :=
  { id := 10, member_id := 1, member_name := some "Jane Doe", attendance_date := 5,
    status := .present, check_in_time := 100,
    notes := some "Self-checked via QR code", is_deleted := false }

/-- Store after the C3 witness run. -/
def dbC3after : DB :=
  { members := [memberJane], attendance := [recC3], users := [], next_id := 11 }

/-- Record created by the C2 witness run of `mark_attendance`. -/
def recC2 : Attendance :=
  { id := 10, member_id := 1, attendance_date := 5, status := .present,
    check_in_time := 100, notes := none, is_deleted := false }

/-- Response of the C2 witness run. -/
def respC2 : AttendanceResponse :=
  { id := 10, member_id := 1, member_name := some "Jane Doe", attendance_date := 5,
    status := .present, check_in_time := 100, notes := none, is_deleted := false }

/-- Store after the C2 witness run. -/
def dbC2after : DB :=
  { members := [memberJane], attendance := [recC2], users := [], next_id := 11 }

/-- Store for the C4 witness: Jane with a live attendance row for date 5. -/
def dbC4 : DB :=
  { members := [memberJane], attendance := [recC2], users := [], next_id := 11 }

/-- Response of the C4 witness soft delete. -/
def respC4 : AttendanceResponse :=
  { id := 10, member_id := 1, member_name := some "Jane Doe", attendance_date := 5,
    status := .present, check_in_time := 100, notes := none, is_deleted := true }

/-- The soft-deleted row left behind by the C4 witness delete. -/
def recC4del : Attendance :=
  { id := 10, member_id := 1, attendance_date := 5, status := .present,
    check_in_time := 100, notes := none, is_deleted := true }

/-- Store after the C4 witness soft delete. -/
def dbC4after : DB :=
  { members := [memberJane], attendance := [recC4del], users := [], next_id := 11 }

/-- Soft-deleted member used by the C5 witness. -/
def memberGone : Member :=
  { id := 2, first_name := "Ann", second_name := none, last_name := "Lee",
    phone_number := none, email := none, membership_status := "active",
    is_deleted := true }

/-- Live super_admin user. -/
def userAdmin : User :=
  { id := 3, email := "admin@cms.com", username := "admin",
    full_name := "System Administrator", role := "super_admin",
    hashed_password := "h1", is_active := true, must_change_password := false,
    is_deleted := false, created_at := 0 }

/-- Soft-deleted user. -/
def userGone : User :=
  { id := 4, email := "gone@cms.com", username := "gone", full_name := "Gone",
    role := "calling_team", hashed_password := "h2", is_active := false,
    must_change_password := false, is_deleted := true, created_at := 1 }

/-- Live attendance row of the C5 witness store. -/
def recC5 : Attendance :=
  { id := 20, member_id := 1, attendance_date := 5, status := .present,
    check_in_time := 0, notes := none, is_deleted := false }

/-- Soft-deleted attendance row of the C5 witness store. -/
def recC5gone : Attendance :=
  { id := 21, member_id := 1, attendance_date := 6, status := .present,
    check_in_time := 0, notes := none, is_deleted := true }

/-- Store with one live and one soft-deleted row in every table. -/
def dbC5 : DB :=
  { members := [memberJane, memberGone], attendance := [recC5, recC5gone],
    users := [userAdmin, userGone], next_id := 50 }

/-- Response of the C5 witness single get. -/
def respC5live : AttendanceResponse :=
  { id := 20, member_id := 1, member_name := some "Jane Doe", attendance_date := 5,
    status := .present, check_in_time := 0, notes := none, is_deleted := false }

/-- Forty-five attendance rows for the C9 pagination scenario. -/
def rowsC9 : List Attendance :=
  (List.range 45).map fun i =>
    { id := i, member_id := 1, attendance_date := i, status := .present,
      check_in_time := 0, notes := none, is_deleted := false }

/-- Store for the C9 pagination scenario. -/
def dbC9 : DB :=
  { members := [memberJane], attendance := rowsC9, users := [], next_id := 100 }

/-- Second live member for the C1 bulk scenario. -/
def memberTwo : Member :=
  { id := 2, first_name := "Bob", second_name := none, last_name := "Ray",
    phone_number := none, email := none, membership_status := "active",
    is_deleted := false }

/-- Pre-existing live attendance row of member 1 for date 5. -/
def recC1 : Attendance :=
  { id := 20, member_id := 1, attendance_date := 5, status := .present,
    check_in_time := 0, notes := none, is_deleted := false }

/-- Store for the C1 bulk scenario: members 1 and 2 live, member 1 already
marked for date 5. -/
def dbC1 : DB :=
  { members := [memberJane, memberTwo], attendance := [recC1], users := [],
    next_id := 30 }

/-- Store whose only user is a single live super_admin. -/
def dbC6 : DB :=
  { members := [], attendance := [], users := [userAdmin], next_id := 99 }

/-- Second live super_admin. -/
def userAdmin2 : User :=
  { id := 5, email := "second@cms.com", username := "second", full_name := "Second",
    role := "super_admin", hashed_password := "h3", is_active := true,
    must_change_password := false, is_deleted := false, created_at := 2 }

/-- Store holding two live super_admins. -/
def dbC6two : DB :=
  { members := [], attendance := [], users := [userAdmin, userAdmin2], next_id := 60 }

/-! ### Helper lemmas about the query primitives -/

theorem find?_isSome_iff {α : Type} {p : α → Bool} {l : List α} :
    (l.find? p).isSome = true ↔ ∃ x ∈ l, p x = true := by
  induction l with
  | nil => simp [List.find?]
  | cons a l ih =>
    cases hpa : p a with
    | true => simp [List.find?, hpa]
    | false => simp [List.find?, hpa, ih]

theorem find?_append_left_none {α : Type} {p : α → Bool} {l₁ l₂ : List α}
    (h : l₁.find? p = none) : (l₁ ++ l₂).find? p = l₂.find? p := by
  induction l₁ with
  | nil => simp
  | cons a l ih =>
    rw [List.find?] at h
    by_cases hp : p a
    · simp [hp] at h
    · simp only [List.cons_append, List.find?, hp]
      exact ih (by simpa [hp] using h)

/-- Inversion of the shared commit tail: a success means the commit found no
key clash and the new store is exactly the old one plus the new row. -/
theorem commitNew_ok_inv {db : DB} {rec : Attendance} {resp : AttendanceResponse}
    {db' : DB} (h : commitNew db rec = .ok (resp, db')) :
    hasDuplicateKey (db.attendance ++ [rec]) = false ∧ db' = pushRecord db rec := by
  unfold commitNew at h
  split at h
  · exact absurd h (by simp)
  · rename_i hdup
    constructor
    · simpa using hdup
    · split at h
      · exact absurd h (by simp)
      · cases h; rfl

/-- Inversion of `mark_attendance` success. -/
theorem mark_ok_inv {db : DB} {today now : Nat} {data : AttendanceCreate}
    {resp : AttendanceResponse} {db' : DB}
    (h : mark_attendance db today now data = .ok (resp, db')) :
    (∃ m, findLiveMember db.members data.member_id = some m) ∧
    (findExistingAttendance db.attendance data.member_id
        (data.attendance_date.getD today)).isSome = false ∧
    db' = pushRecord db (newRecord db data.member_id (data.attendance_date.getD today)
      data.status now data.notes) := by
  unfold mark_attendance at h
  split at h
  · exact absurd h (by simp)
  · rename_i m hok
    have hmem : ∃ x, findLiveMember db.members data.member_id = some x := by
      unfold getMemberOr404 at hok
      split at hok
      · rename_i x hx; exact ⟨x, hx⟩
      · exact absurd hok (by simp)
    split at h
    · exact absurd h (by simp)
    · rename_i hex
      exact ⟨hmem, by simpa using hex, (commitNew_ok_inv h).2⟩

/-- Inversion of `confirm_and_mark` success. -/
theorem confirm_ok_inv {db : DB} {today now : Nat} {data : QRConfirmRequest}
    {resp : AttendanceResponse} {db' : DB}
    (h : confirm_and_mark db today now data = .ok (resp, db')) :
    (∃ m, findLiveMember db.members data.member_id = some m) ∧
    (findExistingAttendance db.attendance data.member_id
        (data.attendance_date.getD today)).isSome = false ∧
    db' = pushRecord db (newRecord db data.member_id (data.attendance_date.getD today)
      .present now (some "Self-checked via QR code")) := by
  unfold confirm_and_mark at h
  split at h
  · exact absurd h (by simp)
  · rename_i m hok
    have hmem : ∃ x, findLiveMember db.members data.member_id = some x := by
      unfold getMemberOr404 at hok
      split at hok
      · rename_i x hx; exact ⟨x, hx⟩
      · exact absurd hok (by simp)
    split at h
    · exact absurd h (by simp)
    · rename_i hex
      exact ⟨hmem, by simpa using hex, (commitNew_ok_inv h).2⟩

/-- Post-commit re-fetch: under fresh ids the re-read row is the new row. -/
theorem getRecordOr404_push_fresh {db : DB} {rec : Attendance} (hfresh : db.freshIds)
    (hid : rec.id = db.next_id) (hdel : rec.is_deleted = false) :
    getRecordOr404 (pushRecord db rec).attendance rec.id = .ok rec := by
  have hnone : db.attendance.find? (fun a => a.id == rec.id && !a.is_deleted) = none := by
    apply List.find?_eq_none.mpr
    intro a ha
    have hlt := hfresh a ha
    simp only [Bool.and_eq_true, beq_iff_eq, Bool.not_eq_true', not_and]
    intro hcontra
    exfalso
    omega
  unfold getRecordOr404 pushRecord
  rw [find?_append_left_none hnone]
  simp [List.find?, hdel]

/-- The response a successful commit hands back is the dict of the new row. -/
theorem commitNew_ok_resp {db : DB} {rec : Attendance} {resp : AttendanceResponse}
    {db' : DB} (hfresh : db.freshIds) (hid : rec.id = db.next_id)
    (hdel : rec.is_deleted = false) (h : commitNew db rec = .ok (resp, db')) :
    resp = buildResponseDict (pushRecord db rec).members rec := by
  unfold commitNew at h
  split at h
  · exact absurd h (by simp)
  · rw [getRecordOr404_push_fresh hfresh hid hdel] at h
    cases h; rfl

/-- C3: for every `confirmAndMark` call that succeeds, the stored record has
status present — the request schema (`QRConfirmRequest`) carries no status
field for the caller to set — and its notes field is exactly the sentinel
string "Self-checked via QR code"; the response reports the same. -/
theorem C3_confirm_forces_present (db : DB) (today now : Nat) (data : QRConfirmRequest)
    (resp : AttendanceResponse) (db' : DB) (hfresh : db.freshIds)
    (h : confirm_and_mark db today now data = .ok (resp, db')) :
    (∃ rec, db'.attendance = db.attendance ++ [rec] ∧
        rec.member_id = data.member_id ∧
        rec.status = .present ∧ rec.notes = some "Self-checked via QR code") ∧
    resp.status = .present ∧ resp.notes = some "Self-checked via QR code" := by
  have hinv := confirm_ok_inv h
  unfold confirm_and_mark at h
  split at h
  · exact absurd h (by simp)
  · split at h
    · exact absurd h (by simp)
    · have hresp := commitNew_ok_resp hfresh rfl rfl h
      refine ⟨⟨_, by rw [hinv.2.2]; rfl, rfl, rfl, rfl⟩, ?_, ?_⟩
      · rw [hresp]; rfl
      · rw [hresp]; rfl

/-- Witness for C3 at a concrete store: Jane self-checks in via QR. -/
theorem C3_confirm_forces_present_witness :
    (∃ rec, dbC3after.attendance = dbJane.attendance ++ [rec] ∧
        rec.member_id = 1 ∧
        rec.status = .present ∧ rec.notes = some "Self-checked via QR code") ∧
    respC3.status = .present ∧ respC3.notes = some "Self-checked via QR code" :=
  C3_confirm_forces_present dbJane 5 100 ⟨1, none⟩ respC3 dbC3after (by decide) rfl

/-- C2: after a successful `mark(m, d)`, a second `mark(m, d)` with any
status, and a `confirmAndMark(m, d)`, both fail with Conflict (HTTP 409); the
sequential duplicate is caught by the pre-check on non-deleted records, and
the commit path converts a storage uniqueness violation into the same
Conflict, so no raw storage error is surfaced. -/
theorem C2_second_mark_conflict (db : DB) (today now : Nat) (data : AttendanceCreate)
    (resp : AttendanceResponse) (db' : DB)
    (h : mark_attendance db today now data = .ok (resp, db')) :
    ∀ today2 now2 st2 notes2,
      mark_attendance db' today2 now2
        ⟨data.member_id, st2, some (data.attendance_date.getD today), notes2⟩ =
        .error .conflict ∧
      confirm_and_mark db' today2 now2
        ⟨data.member_id, some (data.attendance_date.getD today)⟩ = .error .conflict := by
  obtain ⟨⟨m, hm⟩, hex, hdb'⟩ := mark_ok_inv h
  set d := data.attendance_date.getD today with hd
  intro today2 now2 st2 notes2
  have hmem' : findLiveMember db'.members data.member_id = some m := by
    rw [hdb']; exact hm
  have hsome : (findExistingAttendance db'.attendance data.member_id d).isSome = true := by
    unfold findExistingAttendance
    apply find?_isSome_iff.mpr
    refine ⟨newRecord db data.member_id d data.status now data.notes, ?_, ?_⟩
    · rw [hdb']; simp [pushRecord]
    · simp [newRecord]
  constructor
  · unfold mark_attendance
    simp only [getMemberOr404, hmem', Option.getD_some]
    rw [hsome]
    simp
  · unfold confirm_and_mark
    simp only [getMemberOr404, hmem', Option.getD_some]
    rw [hsome]
    simp

/-- Witness for C2: marking Jane twice for date 5; the repeat mark (with a
different status) and the QR confirm both report Conflict. -/
theorem C2_second_mark_conflict_witness :
    mark_attendance dbC2after 7 200 ⟨1, .late, some 5, none⟩ = .error .conflict ∧
    confirm_and_mark dbC2after 7 200 ⟨1, some 5⟩ = .error .conflict :=
  C2_second_mark_conflict dbJane 5 100 ⟨1, .present, none, none⟩ respC2 dbC2after
    rfl 7 200 .late none

theorem find?_some_pred {α : Type} {p : α → Bool} {l : List α} {u : α}
    (h : l.find? p = some u) : p u = true := by
  induction l with
  | nil => simp [List.find?] at h
  | cons a l ih =>
    cases hpa : p a with
    | true =>
      have hh : (a :: l).find? p = some a := by simp [List.find?, hpa]
      rw [hh] at h
      cases h
      exact hpa
    | false =>
      have hh : (a :: l).find? p = l.find? p := by simp [List.find?, hpa]
      rw [hh] at h
      exact ih h

theorem find?_decomp {α : Type} {p : α → Bool} {l : List α} {u : α}
    (h : l.find? p = some u) :
    ∃ l1 l2, l = l1 ++ u :: l2 ∧ ∀ x ∈ l1, p x = false := by
  induction l with
  | nil => simp [List.find?] at h
  | cons a l ih =>
    cases hpa : p a with
    | true =>
      have hh : (a :: l).find? p = some a := by simp [List.find?, hpa]
      rw [hh] at h
      cases h
      exact ⟨[], l, rfl, by simp⟩
    | false =>
      have hh : (a :: l).find? p = l.find? p := by simp [List.find?, hpa]
      rw [hh] at h
      obtain ⟨l1, l2, heq, hl1⟩ := ih h
      refine ⟨a :: l1, l2, by rw [heq]; rfl, ?_⟩
      intro x hx
      rcases List.mem_cons.mp hx with rfl | hx2
      · exact hpa
      · exact hl1 x hx2

theorem updateFirst_decomp {α : Type} (p : α → Bool) (f : α → α) (l1 l2 : List α)
    (u : α) (hl1 : ∀ x ∈ l1, p x = false) (hu : p u = true) :
    updateFirst p f (l1 ++ u :: l2) = l1 ++ f u :: l2 := by
  induction l1 with
  | nil => simp [updateFirst, hu]
  | cons a t ih =>
    have hpa : p a = false := hl1 a (List.mem_cons_self a t)
    have ih2 := ih fun x hx => hl1 x (List.mem_cons_of_mem a hx)
    simp [updateFirst, hpa, ih2]

theorem hasDuplicateKey_of_two {x y : Attendance} (hxy : sameKey x y = true) :
    ∀ (l1 l2 l3 : List Attendance),
      hasDuplicateKey (l1 ++ x :: (l2 ++ y :: l3)) = true := by
  intro l1
  induction l1 with
  | nil =>
    intro l2 l3
    have hany : (l2 ++ y :: l3).any (sameKey x) = true :=
      List.any_eq_true.mpr ⟨y, by simp, hxy⟩
    simp [hasDuplicateKey, hany]
  | cons a t ih =>
    intro l2 l3
    simp [hasDuplicateKey, ih l2 l3]

/-- Inversion of a successful attendance soft delete. -/
theorem delete_ok_inv {db : DB} {aid : Nat} {resp : AttendanceResponse} {db' : DB}
    (h : delete_attendance db aid = .ok (resp, db')) :
    db'.members = db.members ∧
    db'.attendance = updateFirst (fun a => a.id == aid && !a.is_deleted)
      (fun a => { a with is_deleted := true }) db.attendance := by
  unfold delete_attendance at h
  split at h
  · exact absurd h (by simp)
  · cases h; exact ⟨rfl, rfl⟩

/-- C4: the storage uniqueness constraint ignores the soft-delete flag.  After
the only attendance row for (m, d) is soft-deleted, a fresh mark or QR confirm
passes the application pre-check (which filters `is_deleted`) yet fails with
Conflict, because the insert collides with the soft-deleted row at commit —
re-marking after a soft delete is never possible. -/
theorem C4_soft_delete_blocks_remark (db : DB) (mid d aid : Nat) (r : Attendance)
    (resp : AttendanceResponse) (db' : DB)
    (hm : (findLiveMember db.members mid).isSome = true)
    (hf : db.attendance.find? (fun a => a.id == aid && !a.is_deleted) = some r)
    (hkm : r.member_id = mid) (hkd : r.attendance_date = d)
    (hone : db.attendance.countP
      (fun a => a.member_id == mid && a.attendance_date == d) = 1)
    (hdel : delete_attendance db aid = .ok (resp, db')) :
    (findExistingAttendance db'.attendance mid d).isSome = false ∧
    (∀ today now st notes,
      mark_attendance db' today now ⟨mid, st, some d, notes⟩ = .error .conflict) ∧
    (∀ today now,
      confirm_and_mark db' today now ⟨mid, some d⟩ = .error .conflict) := by
  obtain ⟨hmems, hatt⟩ := delete_ok_inv hdel
  obtain ⟨l1, l2, hsplit, hl1⟩ := find?_decomp hf
  have hpr : (r.id == aid && !r.is_deleted) = true :=
    find?_some_pred (p := fun a : Attendance => a.id == aid && !a.is_deleted) hf
  have hatt' : db'.attendance = l1 ++ { r with is_deleted := true } :: l2 := by
    rw [hatt, hsplit]
    exact updateFirst_decomp _ _ l1 l2 r hl1 hpr
  have hqr : (r.member_id == mid && r.attendance_date == d) = true := by
    simp [hkm, hkd]
  rw [hsplit] at hone
  simp only [List.countP_append, List.countP_cons, hqr, if_true] at hone
  have hql1 := List.countP_eq_zero.mp
    (show l1.countP (fun a => a.member_id == mid && a.attendance_date == d) = 0 by omega)
  have hql2 := List.countP_eq_zero.mp
    (show l2.countP (fun a => a.member_id == mid && a.attendance_date == d) = 0 by omega)
  have hnone : findExistingAttendance db'.attendance mid d = none := by
    unfold findExistingAttendance
    rw [hatt']
    apply List.find?_eq_none.mpr
    intro x hx
    rcases List.mem_append.mp hx with hx1 | hx2
    · intro hcontra
      rw [Bool.and_eq_true] at hcontra
      exact hql1 x hx1 hcontra.1
    · rcases List.mem_cons.mp hx2 with rfl | hx3
      · intro hcontra
        rw [Bool.and_eq_true] at hcontra
        simpa using hcontra.2
      · intro hcontra
        rw [Bool.and_eq_true] at hcontra
        exact hql2 x hx3 hcontra.1
  have hnone_pre : (findExistingAttendance db'.attendance mid d).isSome = false := by
    rw [hnone]; rfl
  obtain ⟨m, hm'⟩ : ∃ m, findLiveMember db'.members mid = some m := by
    rw [hmems]
    exact Option.isSome_iff_exists.mp hm
  have hdup : ∀ rec : Attendance, sameKey { r with is_deleted := true } rec = true →
      hasDuplicateKey (db'.attendance ++ [rec]) = true := by
    intro rec hrk
    rw [hatt']
    have hre : (l1 ++ { r with is_deleted := true } :: l2) ++ [rec] =
        l1 ++ { r with is_deleted := true } :: (l2 ++ rec :: []) := by simp
    rw [hre]
    exact hasDuplicateKey_of_two hrk l1 l2 []
  refine ⟨hnone_pre, ?_, ?_⟩
  · intro today now st notes
    unfold mark_attendance
    simp only [getMemberOr404, hm', Option.getD_some]
    rw [hnone_pre]
    simp only [Bool.false_eq_true, if_false]
    unfold commitNew
    rw [hdup _ (by simp [sameKey, newRecord, hkm, hkd])]
    simp
  · intro today now
    unfold confirm_and_mark
    simp only [getMemberOr404, hm', Option.getD_some]
    rw [hnone_pre]
    simp only [Bool.false_eq_true, if_false]
    unfold commitNew
    rw [hdup _ (by simp [sameKey, newRecord, hkm, hkd])]
    simp

/-- Witness for C4: soft-deleting the single row for (Jane, date 5) and then
trying to re-mark. -/
theorem C4_soft_delete_blocks_remark_witness :
    (findExistingAttendance dbC4after.attendance 1 5).isSome = false ∧
    (∀ today now st notes,
      mark_attendance dbC4after today now ⟨1, st, some 5, notes⟩ = .error .conflict) ∧
    (∀ today now,
      confirm_and_mark dbC4after today now ⟨1, some 5⟩ = .error .conflict) :=
  C4_soft_delete_blocks_remark dbC4 1 5 10 recC2 respC4 dbC4after
    (by decide) (by decide) rfl rfl (by decide) rfl

theorem mem_insertOrdered {α : Type} (lt : α → α → Bool) (a x : α) (l : List α) :
    x ∈ insertOrdered lt a l ↔ x = a ∨ x ∈ l := by
  induction l with
  | nil => simp [insertOrdered]
  | cons b t ih =>
    cases h : lt a b with
    | true => simp [insertOrdered, h, List.mem_cons]
    | false =>
      simp only [insertOrdered, h, Bool.false_eq_true, if_false, List.mem_cons, ih]
      tauto

theorem mem_orderBy {α : Type} (lt : α → α → Bool) (x : α) (l : List α) :
    x ∈ orderBy lt l ↔ x ∈ l := by
  induction l with
  | nil => simp [orderBy]
  | cons a t ih =>
    simp only [orderBy, mem_insertOrdered, ih, List.mem_cons]

/-- Membership in an ordered, offset, limited slice implies membership in the
underlying list. -/
theorem mem_slice {α : Type} {lt : α → α → Bool} {l : List α} {skip limit : Nat}
    {x : α} (h : x ∈ ((orderBy lt l).drop skip).take limit) : x ∈ l := by
  have h1 : x ∈ (orderBy lt l).drop skip := List.take_subset _ _ h
  have h2 : x ∈ orderBy lt l := List.drop_subset _ _ h1
  exact (mem_orderBy lt x l).mp h2

/-- C5: soft-deleted members, users and attendance records never appear in any
list or single-get result (every read filters the deleted flag away), and a
mark against a soft-deleted member id fails with NotFound (HTTP 404). -/
theorem C5_soft_deleted_rows_invisible (db : DB) :
    (∀ skip limit f, ∀ resp ∈ (get_attendance_records db skip limit f).1,
      resp.is_deleted = false) ∧
    (∀ skip limit ms search, ∀ m ∈ (MemberService.get_members db skip limit ms search).1,
      m.is_deleted = false) ∧
    (∀ skip limit role ia, ∀ u ∈ (UserService.get_users db skip limit role ia).1,
      u.is_deleted = false) ∧
    (∀ aid resp, get_attendance db aid = .ok resp → resp.is_deleted = false) ∧
    (∀ mid m, MemberService.get_member db mid = .ok m → m.is_deleted = false) ∧
    (∀ uid u, UserService.get_user db uid = .ok u → u.is_deleted = false) ∧
    (∀ mid, (∀ m ∈ db.members, m.id = mid → m.is_deleted = true) →
      ∀ today now st dt notes,
        mark_attendance db today now ⟨mid, st, dt, notes⟩ = .error .notFound) := by
  refine ⟨?_, ?_, ?_, ?_, ?_, ?_, ?_⟩
  · intro skip limit f resp hresp
    simp only [get_attendance_records] at hresp
    obtain ⟨x, hx, rfl⟩ := List.mem_map.mp hresp
    have hx2 := mem_slice hx
    have hx3 := (List.mem_filter.mp hx2).2
    unfold matchesFilters at hx3
    simp only [Bool.and_eq_true, Bool.not_eq_true'] at hx3
    simpa [buildResponseDict] using hx3.1.1.1.1.1
  · intro skip limit ms search m hm
    simp only [MemberService.get_members] at hm
    have hm2 := mem_slice hm
    have hm3 := (List.mem_filter.mp hm2).2
    unfold memberListFilter at hm3
    simp only [Bool.and_eq_true, Bool.not_eq_true'] at hm3
    exact hm3.1.1
  · intro skip limit role ia u hu
    simp only [UserService.get_users] at hu
    have hu2 := mem_slice hu
    have hu3 := (List.mem_filter.mp hu2).2
    simp only [Bool.and_eq_true, Bool.not_eq_true'] at hu3
    exact hu3.1.1
  · intro aid resp h
    unfold get_attendance at h
    split at h
    · exact absurd h (by simp)
    · rename_i r hr
      cases h
      unfold getRecordOr404 at hr
      split at hr
      · rename_i x hx
        cases hr
        have hp := find?_some_pred (p := fun a : Attendance => a.id == aid && !a.is_deleted) hx
        simp only [Bool.and_eq_true, Bool.not_eq_true'] at hp
        simpa [buildResponseDict] using hp.2
      · exact absurd hr (by simp)
  · intro mid m h
    unfold MemberService.get_member at h
    split at h
    · rename_i x hx
      cases h
      unfold findLiveMember at hx
      have hp := find?_some_pred (p := fun a : Member => a.id == mid && !a.is_deleted) hx
      simp only [Bool.and_eq_true, Bool.not_eq_true'] at hp
      exact hp.2
    · exact absurd h (by simp)
  · intro uid u h
    unfold UserService.get_user at h
    split at h
    · rename_i x hx
      cases h
      have hp := find?_some_pred (p := fun a : User => a.id == uid && !a.is_deleted) hx
      simp only [Bool.and_eq_true, Bool.not_eq_true'] at hp
      exact hp.2
    · exact absurd h (by simp)
  · intro mid hdead today now st dt notes
    have hnone : findLiveMember db.members mid = none := by
      unfold findLiveMember
      apply List.find?_eq_none.mpr
      intro m hm hcontra
      simp only [Bool.and_eq_true, beq_iff_eq, Bool.not_eq_true'] at hcontra
      exact absurd (hdead m hm hcontra.1) (by simp [hcontra.2])
    unfold mark_attendance
    simp [getMemberOr404, hnone]

/-- Witness for C5 at a store holding one live and one soft-deleted row per
table: marking the deleted member 404s, and the single get of the live row
reports a non-deleted record. -/
theorem C5_soft_deleted_rows_invisible_witness :
    mark_attendance dbC5 0 0 ⟨2, .present, none, none⟩ = .error .notFound ∧
    respC5live.is_deleted = false :=
  ⟨(C5_soft_deleted_rows_invisible dbC5).2.2.2.2.2.2 2 (by decide) 0 0 .present none none,
   (C5_soft_deleted_rows_invisible dbC5).2.2.2.1 20 respC5live rfl⟩

/-- Arithmetic core of the endpoint's `math.ceil(total / page_size)`
translation: the computed page count is the least number of pages covering
`total` rows. -/
theorem ceil_div_characterization (T S : Nat) (hT : 1 ≤ T) (hS : 1 ≤ S) :
    S * ((T + S - 1) / S - 1) < T ∧ T ≤ S * ((T + S - 1) / S) := by
  have hdm := Nat.div_add_mod (T + S - 1) S
  have hmlt : (T + S - 1) % S < S := Nat.mod_lt _ (by omega)
  rcases hq : (T + S - 1) / S with _ | q
  · rw [hq] at hdm
    exfalso
    omega
  · rw [hq] at hdm
    have h1 : q + 1 - 1 = q := rfl
    have h2 : S * (q + 1) = S * q + S := Nat.mul_succ S q
    rw [h1, h2]
    rw [h2] at hdm
    generalize S * q = Y at hdm ⊢
    omega

/-- C9: for every attendance list request with page ≥ 1 and pageSize ≥ 1, the
returned slice is the ordered filtered rows from offset (page-1)*pageSize,
holds at most pageSize records, total is the filtered row count, and
totalPages is 0 when total = 0 and otherwise the least page count covering
total (the ceiling of total / pageSize). -/
theorem C9_pagination (db : DB) (page page_size : Nat) (f : AttendanceFilters)
    (hp : 1 ≤ page) (hs : 1 ≤ page_size) :
    (list_attendance db page page_size f).items =
      (((orderBy attendanceBefore (db.attendance.filter (matchesFilters f))).drop
        ((page - 1) * page_size)).take page_size).map (buildResponseDict db.members) ∧
    (list_attendance db page page_size f).items.length ≤ page_size ∧
    (list_attendance db page page_size f).total =
      (db.attendance.filter (matchesFilters f)).length ∧
    ((list_attendance db page page_size f).total = 0 →
      (list_attendance db page page_size f).total_pages = 0) ∧
    (0 < (list_attendance db page page_size f).total →
      page_size * ((list_attendance db page page_size f).total_pages - 1) <
        (list_attendance db page page_size f).total ∧
      (list_attendance db page page_size f).total ≤
        page_size * (list_attendance db page page_size f).total_pages) := by
  have hT : (list_attendance db page page_size f).total =
      (db.attendance.filter (matchesFilters f)).length := rfl
  have hTP : (list_attendance db page page_size f).total_pages =
      (if 0 < (db.attendance.filter (matchesFilters f)).length then
        ((db.attendance.filter (matchesFilters f)).length + page_size - 1) / page_size
      else 0) := rfl
  refine ⟨rfl, ?_, rfl, ?_, ?_⟩
  · show ((((orderBy attendanceBefore (db.attendance.filter (matchesFilters f))).drop
      ((page - 1) * page_size)).take page_size).map (buildResponseDict db.members)).length ≤
      page_size
    rw [List.length_map, List.length_take]
    exact min_le_left _ _
  · intro h0
    rw [hT] at h0
    rw [hTP, h0]
    simp
  · intro hpos
    rw [hT] at hpos
    rw [hTP, hT, if_pos hpos]
    exact ceil_div_characterization _ _ hpos hs

/-- Witness for C9: 45 matching rows with pageSize 20 give totalPages 3, and
page 3 returns the remaining 5 records. -/
theorem C9_pagination_witness :
    (list_attendance dbC9 3 20 {}).total = 45 ∧
    (list_attendance dbC9 3 20 {}).total_pages = 3 ∧
    (list_attendance dbC9 3 20 {}).items.length = 5 ∧
    (list_attendance dbC9 3 20 {}).items.length ≤ 20 :=
  ⟨by decide, by decide, by decide,
    (C9_pagination dbC9 3 20 {} (by decide) (by decide)).2.1⟩

/-- C1 (bug evaluation): `bulkMark([1, 2])` against a store where member 1
already has a live row for the target date.  Member 1 lands in `skipped`, but
the `created` re-query — which selects every non-deleted row whose member id
is in the input list and whose date is the target date, not just freshly
inserted ones — also returns member 1's pre-existing row.  Hence created
member ids are [1, 2], total_created = 2, total_skipped = 1, and
total_created + total_skipped = 3 ≠ 2 = number of input ids, contradicting
both "m1 ∉ created" and the count equation of the claim. -/
theorem C1_bulk_requery_returns_preexisting :
    (bulk_mark_attendance dbC1 5 7 ⟨[1, 2], .present, none, none⟩).map
      (fun p => (p.1.skipped, p.1.created.map AttendanceResponse.member_id,
        p.1.total_created, p.1.total_skipped)) = .ok ([1], [1, 2], 2, 1) := rfl

/-- C8 (bug evaluation): the dependency name the attendance endpoints import
and wire into every route (`require_user_or_admin`) is not among the
dependency functions app/api/deps.py defines, so the gate cannot resolve;
the gate that app/api/deps.py does define for attendance
(`require_attendance_access`) forbids exactly the texting_team role and
passes every other role, as the spec intends. -/
theorem C8_attendance_gate_unwired :
    attendanceEndpointsDependencyName ∉ depsDefinedNames ∧
    (∀ u : User, require_attendance_access u = .error .forbidden ↔
      u.role = ModelUserRole.texting_team.value) := by
  constructor
  · decide
  · intro u
    unfold require_attendance_access
    cases h : (u.role == ModelUserRole.texting_team.value) with
    | true =>
      simp only [h, if_true]
      simpa using eq_of_beq h
    | false =>
      simp only [h, Bool.false_eq_true, if_false]
      constructor
      · intro hcontra
        exact absurd hcontra (by simp)
      · intro hcontra
        exact absurd hcontra (ne_of_beq_false h)

/-- C10: the wire-boundary user role enum is the legacy two-value scheme: the
schema enum accepts exactly the strings "admin" and "user", its members carry
only those two values, and none of them coincides with any value of the
three-value persistence enum, so no three-value role round-trips through the
public user API schemas. -/
theorem C10_wire_role_enum_is_legacy :
    (∀ s : String, (parseSchemaUserRole s).isSome ↔ s = "admin" ∨ s = "user") ∧
    (∀ r : SchemaUserRole, r.value = "admin" ∨ r.value = "user") ∧
    (∀ r : SchemaUserRole, ∀ m : ModelUserRole, r.value ≠ m.value) := by
  refine ⟨?_, ?_, ?_⟩
  · intro s
    unfold parseSchemaUserRole
    by_cases h1 : s = "admin"
    · simp [h1]
    · by_cases h2 : s = "user"
      · simp [h1, h2]
      · simp [h1, h2]
  · intro r
    cases r <;> simp [SchemaUserRole.value]
  · intro r m
    cases r <;> cases m <;> decide

/-- Rewriting the first row a query found changes any row count by the
difference the rewrite makes on that row. -/
theorem countP_updateFirst {α : Type} {p : α → Bool} {l : List α} {u : α}
    (f : α → α) (q : α → Bool) (h : l.find? p = some u) :
    (updateFirst p f l).countP q + (if q u then 1 else 0) =
      l.countP q + (if q (f u) then 1 else 0) := by
  induction l with
  | nil => simp [List.find?] at h
  | cons a t ih =>
    cases hpa : p a with
    | true =>
      have hh : (a :: t).find? p = some a := by simp [List.find?, hpa]
      rw [hh] at h
      cases h
      simp only [updateFirst, hpa, if_true, List.countP_cons]
      split_ifs <;> omega
    | false =>
      have hh : (a :: t).find? p = t.find? p := by simp [List.find?, hpa]
      rw [hh] at h
      have iht := ih h
      simp only [updateFirst, hpa, Bool.false_eq_true, if_false, List.countP_cons]
      split_ifs at iht ⊢ <;> omega

/-- C6 counterexample: on a store whose only user is the sole live
super_admin, `update` with a role change succeeds — `update_user` has no
last-super_admin guard — and leaves zero non-deleted super_admins. -/
theorem C6_update_demotes_last_super_admin :
    countSuperAdmins dbC6.users = 1 ∧
    ∃ u db', UserService.update_user dbC6 3 { role := some .user } = .ok (u, db') ∧
      countSuperAdmins db'.users = 0 :=
  ⟨rfl, _, _, rfl, rfl⟩

/-- C6 amended: the at-least-one-super_admin invariant is preserved by
delete (which refuses to remove the last one), by create and by
reset-password — but not by update, whose role patch can demote the sole
super_admin (see the counterexample). -/
theorem C6_invariant_preserved_by_delete_create_reset (db : DB)
    (h : 1 ≤ countSuperAdmins db.users) :
    (∀ uid u db', UserService.delete_user db uid = .ok (u, db') →
      1 ≤ countSuperAdmins db'.users) ∧
    (∀ now data u db', UserService.create_user db now data = .ok (u, db') →
      1 ≤ countSuperAdmins db'.users) ∧
    (∀ uid pw u db', UserService.reset_password db uid pw = .ok (u, db') →
      1 ≤ countSuperAdmins db'.users) := by
  refine ⟨?_, ?_, ?_⟩
  · intro uid u db' hdel
    unfold UserService.delete_user at hdel
    split at hdel
    · exact absurd hdel (by simp)
    · rename_i user hfind
      split at hdel
      · exact absurd hdel (by simp)
      · rename_i hguard
        cases hdel
        dsimp only
        unfold countSuperAdmins at h ⊢
        have hup := find?_some_pred (p := fun v : User => v.id == uid && !v.is_deleted) hfind
        simp only [Bool.and_eq_true, Bool.not_eq_true'] at hup
        have hcnt := countP_updateFirst
          (f := fun v : User => { v with is_deleted := true, is_active := false })
          (q := fun v : User => v.role == ModelUserRole.super_admin.value && !v.is_deleted)
          hfind
        simp only [] at hcnt
        simp only [Bool.not_true, Bool.and_false, Bool.false_eq_true, if_false,
          Nat.add_zero] at hcnt
        cases hrole : (user.role == ModelUserRole.super_admin.value) with
        | true =>
          have hQu : (user.role == ModelUserRole.super_admin.value &&
              !user.is_deleted) = true := by simp [hrole, hup.2]
          simp only [hQu, eq_self_iff_true, if_true] at hcnt
          have hge : ¬(countSuperAdmins db.users ≤ 1) :=
            fun hle => hguard (by simp [hrole, hle])
          unfold countSuperAdmins at hge
          omega
        | false =>
          have hQu : (user.role == ModelUserRole.super_admin.value &&
              !user.is_deleted) = false := by simp [hrole]
          simp only [hQu, Bool.false_eq_true, if_false, Nat.add_zero] at hcnt
          omega
  · intro now data u db' hc
    unfold UserService.create_user at hc
    split at hc
    · exact absurd hc (by simp)
    · split at hc
      · exact absurd hc (by simp)
      · cases hc
        dsimp only
        unfold countSuperAdmins at h ⊢
        rw [List.countP_append]
        omega
  · intro uid pw u db' hr
    unfold UserService.reset_password at hr
    split at hr
    · exact absurd hr (by simp)
    · rename_i user hfind
      cases hr
      dsimp only
      unfold countSuperAdmins at h ⊢
      have hcnt := countP_updateFirst
        (f := fun v : User => { v with
          hashed_password := get_password_hash pw, must_change_password := true })
        (q := fun v : User => v.role == ModelUserRole.super_admin.value && !v.is_deleted)
        hfind
      simp only [] at hcnt
      split_ifs at hcnt <;> omega

/-- Witness for the amended C6: deleting one of two live super_admins still
leaves one. -/
theorem C6_invariant_preserved_witness :
    1 ≤ countSuperAdmins dbC6two.users ∧
    ∃ u db', UserService.delete_user dbC6two 3 = .ok (u, db') ∧
      1 ≤ countSuperAdmins db'.users :=
  ⟨by decide, _, _, rfl,
    (C6_invariant_preserved_by_delete_create_reset dbC6two (by decide)).1 3 _ _ rfl⟩

/-- C7 counterexample: deleting the sole remaining live super_admin fails, but
with HTTP 400 (the generic bad-request status the service also uses for
duplicate email/username), not with HTTP 409 Conflict as the claim states. -/
theorem C7_last_admin_delete_is_400_not_409 :
    countSuperAdmins dbC6.users = 1 ∧
    UserService.delete_user dbC6 3 = .error .badRequest ∧
    Err.badRequest.httpStatus = 400 ∧ Err.conflict.httpStatus = 409 ∧
    UserService.delete_user dbC6 3 ≠ .error .conflict := by
  refine ⟨rfl, rfl, rfl, rfl, ?_⟩
  intro hcontra
  have h3 : (Except.error Err.badRequest : Except Err (User × DB)) = .error .conflict := by
    calc (Except.error Err.badRequest : Except Err (User × DB))
        = UserService.delete_user dbC6 3 := rfl
      _ = .error .conflict := hcontra
  exact absurd (Except.error.inj h3) (by simp)

/-- C7 amended: deleting the sole remaining live super_admin fails with
BadRequest (HTTP 400) — not Conflict/409 — and, since the service raises
before mutating, the user is untouched; deleting a non-last super_admin or a
user of any other role succeeds, sets the deleted flag and clears the active
flag. -/
theorem C7_delete_user_behaviour (db : DB) (uid : Nat) (user : User)
    (hfind : db.users.find? (fun v => v.id == uid && !v.is_deleted) = some user) :
    (user.role = ModelUserRole.super_admin.value → countSuperAdmins db.users ≤ 1 →
      UserService.delete_user db uid = .error .badRequest ∧
      Err.badRequest.httpStatus = 400) ∧
    ((user.role ≠ ModelUserRole.super_admin.value ∨ 2 ≤ countSuperAdmins db.users) →
      ∃ res db', UserService.delete_user db uid = .ok (res, db') ∧
        res.is_deleted = true ∧ res.is_active = false ∧
        db'.users = updateFirst (fun v => v.id == uid && !v.is_deleted)
          (fun v => { v with is_deleted := true, is_active := false }) db.users) := by
  constructor
  · intro hrole hle
    refine ⟨?_, rfl⟩
    unfold UserService.delete_user
    rw [hfind]
    dsimp only
    rw [if_pos (by simp [hrole, hle])]
  · intro hcase
    have hcond : (user.role == ModelUserRole.super_admin.value &&
        decide (countSuperAdmins db.users ≤ 1)) = false := by
      rcases hcase with hne | hge
      · simp [hne]
      · have hgt : ¬(countSuperAdmins db.users ≤ 1) := by omega
        simp [hgt]
    have heq : UserService.delete_user db uid =
        .ok ({ user with is_deleted := true, is_active := false },
          { db with users := (updateFirst (fun v => v.id == uid && !v.is_deleted)
            (fun v => { v with is_deleted := true, is_active := false }) db.users) }) := by
      unfold UserService.delete_user
      rw [hfind]
      dsimp only
      rw [if_neg (by simp [hcond])]
    exact ⟨_, _, heq, rfl, rfl, rfl⟩

/-- Witness for the amended C7: deleting the sole super_admin of `dbC6` fails
with HTTP 400. -/
theorem C7_delete_user_behaviour_witness :
    UserService.delete_user dbC6 3 = .error .badRequest ∧
    Err.badRequest.httpStatus = 400 :=
  (C7_delete_user_behaviour dbC6 3 userAdmin rfl).1 rfl (by decide)

end ChurchApp
